import Mathlib

/-!
Verification development for the real-time stock data stream repository.

The development shallowly embeds the core of `stock_generator.py`
(the distributed batch scheduler `generate_distributed_trades`, the validated
record model `TradeData`, and the bulk loader `insert_trades_batch` with its
fallback) and of `stock_realtime_socket.py` (the per-connection push loop
`stream_data` and control-message listener `listen_for_tick_updates`).

Numeric conventions: Python floats are modelled as rationals (`Rat`);
Python ints as `Int`/`Nat`.  Randomness is modelled by oracle functions:
`random.randint(0, m)` becomes an arbitrary function `rand : Nat → Nat → Nat`
whose draws are assumed bounded by the requested maximum, and a NumPy
generator `np.random.default_rng(seed)` becomes an abstract family
`default_rng : Nat → Rng` of deterministic draw streams indexed by the seed.
Python integer floor division `//` agrees with Lean's `Int` division (`/`,
Euclidean) on every division the embedded code performs, since the divisor
is the positive literal 3 and the dividend is only divided in branches where
it is at least 2.
-/

/-- One-second bucket allocation for a single bucket of
`generate_distributed_trades` (stock_generator.py lines 223-230): if the
remaining unallocated count is at most 1 the bucket gets 0, otherwise the
bucket gets the random draw `random.randint(0, max(1, remaining // 3))`,
modelled by the oracle `rand` applied to the draw index and the inclusive
upper bound. -/
def allocOne (rand : Nat → Nat → Nat) (i : Nat) (remaining : Int) : Int :=
  if remaining ≤ 1 then 0
  else (rand i (max 1 (remaining / 3)).toNat : Int)

/-- The loop `for second in range(9)` of `generate_distributed_trades`
(stock_generator.py lines 222-230): allocates the first `n` buckets,
returning the per-bucket sizes in order together with the count still
remaining.  The draw index `i` advances only when a random draw is
consumed, mirroring the fact that `random.randint` is not called in the
`remaining <= 1` branch. -/
def allocFirst (rand : Nat → Nat → Nat) : Nat → Nat → Int → List Int × Int
  | 0, _, remaining => ([], remaining)
  | n + 1, i, remaining =>
    if remaining ≤ 1 then
      let p := allocFirst rand n i remaining
      (0 :: p.1, p.2)
    else
      let size : Int := (rand i (max 1 (remaining / 3)).toNat : Int)
      let p := allocFirst rand n (i + 1) (remaining - size)
      (size :: p.1, p.2)

/-- The complete `second_sizes` list built by `generate_distributed_trades`
(stock_generator.py lines 218-233): nine randomized buckets followed by a
final bucket receiving everything still remaining. -/
def second_sizes (rand : Nat → Nat → Nat) (total : Int) : List Int :=
  let p := allocFirst rand 9 0 total
  p.1 ++ [p.2]

theorem allocFirst_length (rand : Nat → Nat → Nat) :
    ∀ (n i : Nat) (r : Int), (allocFirst rand n i r).1.length = n := by
  intro n
  induction n with
  | zero => intro i r; rfl
  | succ m ih =>
    intro i r
    by_cases h : r ≤ 1
    · simp [allocFirst, h, ih]
    · simp [allocFirst, h, ih]

theorem allocFirst_sum (rand : Nat → Nat → Nat) :
    ∀ (n i : Nat) (r : Int),
      (allocFirst rand n i r).1.sum + (allocFirst rand n i r).2 = r := by
  intro n
  induction n with
  | zero => intro i r; simp [allocFirst]
  | succ m ih =>
    intro i r
    by_cases h : r ≤ 1
    · simp only [allocFirst, if_pos h, List.sum_cons]
      have := ih i r
      omega
    · simp only [allocFirst, if_neg h, List.sum_cons]
      have := ih (i + 1) (r - (rand i (max 1 (r / 3)).toNat : Int))
      omega

theorem allocFirst_mem_nonneg (rand : Nat → Nat → Nat) :
    ∀ (n i : Nat) (r : Int), ∀ x ∈ (allocFirst rand n i r).1, 0 ≤ x := by
  intro n
  induction n with
  | zero => intro i r x hx; simp [allocFirst] at hx
  | succ m ih =>
    intro i r x hx
    by_cases h : r ≤ 1
    · simp only [allocFirst, if_pos h, List.mem_cons] at hx
      rcases hx with rfl | hx
      · exact le_refl 0
      · exact ih i r x hx
    · simp only [allocFirst, if_neg h, List.mem_cons] at hx
      rcases hx with rfl | hx
      · exact Int.natCast_nonneg _
      · exact ih (i + 1) _ x hx

theorem allocOne_le_of_bounded (rand : Nat → Nat → Nat)
    (hrand : ∀ i m, rand i m ≤ m) (i : Nat) (r : Int) (hr : 1 < r) :
    allocOne rand i r ≤ max 1 (r / 3) := by
  have hmax : (0 : Int) ≤ max 1 (r / 3) := le_trans (by omega) (le_max_left _ _)
  simp only [allocOne, if_neg (not_le.mpr hr)]
  have h1 : ((rand i (max 1 (r / 3)).toNat : Nat) : Int) ≤ (((max 1 (r / 3)).toNat : Nat) : Int) := by
    exact_mod_cast hrand i (max 1 (r / 3)).toNat
  rwa [Int.toNat_of_nonneg hmax] at h1

theorem max_alloc_le_sub_one (r : Int) (hr : 1 < r) :
    max 1 (r / 3) ≤ r - 1 := by
  apply max_le
  · omega
  · omega

theorem allocFirst_snd_nonneg (rand : Nat → Nat → Nat)
    (hrand : ∀ i m, rand i m ≤ m) :
    ∀ (n i : Nat) (r : Int), 0 ≤ r → 0 ≤ (allocFirst rand n i r).2 := by
  intro n
  induction n with
  | zero => intro i r hr; simpa [allocFirst] using hr
  | succ m ih =>
    intro i r hr
    by_cases h : r ≤ 1
    · simp only [allocFirst, if_pos h]
      exact ih i r hr
    · simp only [allocFirst, if_neg h]
      apply ih
      have h1 : 1 < r := not_le.mp h
      have h2 := allocOne_le_of_bounded rand hrand i r h1
      have h3 := max_alloc_le_sub_one r h1
      simp only [allocOne, if_neg h] at h2
      omega

/-- Claim C1 (confirmed): for every `total_count ≥ 0` and every sequence of
bounded random draws, `generate_distributed_trades` produces exactly 10
per-second bucket counts, all non-negative, summing exactly to the total,
with the 10th bucket receiving everything remaining after the randomized
allocation over the first 9 buckets. -/
theorem c1_bucket_counts (rand : Nat → Nat → Nat)
    (hrand : ∀ i m, rand i m ≤ m) (total : Int) (htotal : 0 ≤ total) :
    (second_sizes rand total).length = 10 ∧
    (∀ s ∈ second_sizes rand total, 0 ≤ s) ∧
    (second_sizes rand total).sum = total ∧
    (second_sizes rand total).getLast? =
      some (total - ((second_sizes rand total).take 9).sum) := by
  have hlen := allocFirst_length rand 9 0 total
  have hsum := allocFirst_sum rand 9 0 total
  refine ⟨?_, ?_, ?_, ?_⟩
  · simp [second_sizes, hlen]
  · intro s hs
    simp only [second_sizes, List.mem_append, List.mem_singleton] at hs
    rcases hs with hs | rfl
    · exact allocFirst_mem_nonneg rand 9 0 total s hs
    · exact allocFirst_snd_nonneg rand hrand 9 0 total htotal
  · simp only [second_sizes, List.sum_append, List.sum_cons, List.sum_nil]
    omega
  · have he : second_sizes rand total =
        (allocFirst rand 9 0 total).1 ++ [(allocFirst rand 9 0 total).2] := rfl
    rw [he, List.getLast?_concat, List.take_left' hlen]
    congr 1
    omega

/-- Witness for claim C1 at the concrete draws `rand i m = m` and total 5. -/
theorem c1_bucket_counts_witness :
    (second_sizes (fun _ m => m) 5).length = 10 ∧
    (∀ s ∈ second_sizes (fun _ m => m) 5, 0 ≤ s) ∧
    (second_sizes (fun _ m => m) 5).sum = 5 ∧
    (second_sizes (fun _ m => m) 5).getLast? =
      some (5 - ((second_sizes (fun _ m => m) 5).take 9).sum) :=
  c1_bucket_counts (fun _ m => m) (fun _ m => le_refl m) 5 (by decide)

/-- Claim C5 (corrected): the per-bucket allocation when more than one unit
remains is drawn from `[0, max(1, remaining // 3)]`, not from
`[0, remaining // 3]` as the claim states — when `remaining = 2` the draw may
be 1 while `remaining // 3 = 0`.  When at most one unit remains the bucket is
allocated 0, and the head of the allocation list produced by the loop is
exactly this per-bucket allocation. -/
theorem c5_alloc_bound (rand : Nat → Nat → Nat)
    (hrand : ∀ i m, rand i m ≤ m) (i : Nat) (r : Int) :
    (r ≤ 1 → allocOne rand i r = 0) ∧
    (1 < r → 0 ≤ allocOne rand i r ∧ allocOne rand i r ≤ max 1 (r / 3)) ∧
    (∀ n, (allocFirst rand (n + 1) i r).1.head? = some (allocOne rand i r)) := by
  refine ⟨?_, ?_, ?_⟩
  · intro h; simp [allocOne, h]
  · intro h
    constructor
    · simp only [allocOne, if_neg (not_le.mpr h)]
      exact Int.ofNat_nonneg _
    · exact allocOne_le_of_bounded rand hrand i r h
  · intro n
    by_cases h : r ≤ 1
    · simp [allocFirst, allocOne, h]
    · simp [allocFirst, allocOne, h]

/-- Witness for claim C5's amended statement at the maximal draws and
`remaining = 2`, where the allocation is 1 (equal to `max(1, 2 // 3)`). -/
theorem c5_alloc_bound_witness :
    ((2 : Int) ≤ 1 → allocOne (fun _ m => m) 0 2 = 0) ∧
    (1 < (2 : Int) → 0 ≤ allocOne (fun _ m => m) 0 2 ∧
      allocOne (fun _ m => m) 0 2 ≤ max 1 (2 / 3)) ∧
    (∀ n, (allocFirst (fun _ m => m) (n + 1) 0 2).1.head? =
      some (allocOne (fun _ m => m) 0 2)) :=
  c5_alloc_bound (fun _ m => m) (fun _ m => le_refl m) 0 2

/-- Counterexample to claim C5 as stated: with `total_count = 2` and maximal
draws, the first bucket is allocated 1 record even though
`remaining // 3 = 2 // 3 = 0`, so the allocation is not drawn from
`[0, remaining // 3]`. -/
theorem c5_counterexample :
    (second_sizes (fun _ m => m) 2).head? = some 1 ∧
    ¬ ((1 : Int) ≤ 2 / 3) := by
  constructor
  · decide
  · decide

deriving instance DecidableEq for Except

/-- Model of Python ASCII `str.upper()` on a character: lower-case ASCII
letters are shifted to upper case, everything else is unchanged.  The
`ticker` and `currency_code` values of this repository are ASCII. -/
def pyUpperChar (c : Char) : Char :=
  if 97 ≤ c.toNat ∧ c.toNat ≤ 122 then Char.ofNat (c.toNat - 32) else c

/-- Model of Python `str.upper()`: `pyUpperChar` applied to every character. -/
def pyUpper (s : String) : String :=
  ⟨s.data.map pyUpperChar⟩

/-- A string with no lower-case ASCII letter, the observable meaning of
"canonicalized to uppercase" for the validated fields. -/
def noLower (s : String) : Bool :=
  s.data.all fun c => !(97 ≤ c.toNat && c.toNat ≤ 122)

/-- Model of Python `round` at non-negative precision: round half to even
(banker's rounding) of a rational number to an integer. -/
def roundHalfEven (q : Rat) : Int :=
  if 2 * (q - ⌊q⌋) < 1 then ⌊q⌋
  else if 1 < 2 * (q - ⌊q⌋) then ⌊q⌋ + 1
  else if ⌊q⌋ % 2 = 0 then ⌊q⌋ else ⌊q⌋ + 1

/-- Model of Python `round(v, 2)` used by the `price_precision` validator
of `TradeData` and by `np.round(..., 2)`: round half to even at two
fractional digits. -/
def round2 (q : Rat) : Rat :=
  (roundHalfEven (q * 100) : Int) / 100

/-- The validated trade record of `stock_generator.py` (`TradeData`).
UUIDs are modelled as natural numbers drawn from per-call streams. -/
structure TradeData where
  event_time : Rat
  event_id : Nat
  ticker : String
  price : Rat
  volume : Int
  trade_type : String
  trade_id : Nat
  market_code : String
  currency_code : String
deriving DecidableEq

/-- Pydantic construction of `TradeData` (stock_generator.py lines 22-59).
Field constraints from the `Field` annotations are checked on the raw
values; the `after` validators (`ticker_must_be_uppercase`,
`currency_code_must_be_uppercase`, `price_precision`) are then applied to
the already-validated values and their results are not re-checked, exactly
as pydantic v2 behaves. -/
def mkTradeData (event_time : Rat) (event_id : Nat) (ticker : String)
    (price : Rat) (volume : Int) (trade_type : String) (trade_id : Nat)
    (market_code : String) (currency_code : String) : Except String TradeData :=
  if 1 ≤ ticker.length ∧ ticker.length ≤ 10 then
    if 0 < price ∧ price ≤ 10000 then
      if 0 < volume ∧ volume ≤ 1000000 then
        if trade_type = "BUY" ∨ trade_type = "SELL" then
          if 1 ≤ market_code.length ∧ market_code.length ≤ 20 then
            if currency_code.length = 3 then
              .ok { event_time := event_time, event_id := event_id,
                    ticker := pyUpper ticker, price := round2 price,
                    volume := volume, trade_type := trade_type,
                    trade_id := trade_id, market_code := market_code,
                    currency_code := pyUpper currency_code }
            else .error "currency_code"
          else .error "market_code"
        else .error "trade_type"
      else .error "volume"
    else .error "price"
  else .error "ticker"

theorem pyUpperChar_no_lower (c : Char) :
    (!(97 ≤ (pyUpperChar c).toNat && (pyUpperChar c).toNat ≤ 122)) = true := by
  by_cases h : 97 ≤ c.toNat ∧ c.toNat ≤ 122
  · simp only [pyUpperChar, if_pos h]
    have h65 : 65 ≤ c.toNat - 32 := by omega
    have h90 : c.toNat - 32 ≤ 90 := by omega
    generalize c.toNat - 32 = m at h65 h90
    interval_cases m <;> decide
  · simp only [pyUpperChar, if_neg h]
    simp only [Bool.not_eq_true', Bool.and_eq_false_iff, decide_eq_false_iff_not, not_le]
    omega

theorem noLower_pyUpper (s : String) : noLower (pyUpper s) = true := by
  simp only [noLower, pyUpper, List.all_eq_true, List.mem_map]
  rintro b ⟨c, _, rfl⟩
  exact pyUpperChar_no_lower c

theorem pyUpper_length (s : String) : (pyUpper s).length = s.length := by
  show (s.data.map pyUpperChar).length = s.data.length
  exact List.length_map _ _

theorem roundHalfEven_nonneg (q : Rat) (hq : 0 ≤ q) : 0 ≤ roundHalfEven q := by
  have hf : (0 : Int) ≤ ⌊q⌋ := Int.floor_nonneg.mpr hq
  unfold roundHalfEven
  split_ifs <;> omega

theorem roundHalfEven_le (q : Rat) (N : Int) (hq : q ≤ N) : roundHalfEven q ≤ N := by
  have hfle : ⌊q⌋ ≤ N := by
    calc ⌊q⌋ ≤ ⌊(N : Rat)⌋ := Int.floor_le_floor hq
      _ = N := Int.floor_intCast N
  unfold roundHalfEven
  split_ifs with h1 h2 h3
  · exact hfle
  · -- the fractional part exceeds 1/2, so the floor is strictly below N
    have hlt : (⌊q⌋ : Rat) < N := by
      have : (⌊q⌋ : Rat) < q := by nlinarith [Int.floor_le q]
      linarith
    have : ⌊q⌋ < N := by exact_mod_cast hlt
    omega
  · exact hfle
  · -- exact tie: the fractional part is 1/2, so again the floor is below N
    have htie : 2 * (q - ⌊q⌋) = 1 := le_antisymm (not_lt.mp h2) (not_lt.mp h1)
    have hlt : (⌊q⌋ : Rat) < N := by nlinarith
    have : ⌊q⌋ < N := by exact_mod_cast hlt
    omega

theorem round2_nonneg (q : Rat) (hq : 0 ≤ q) : 0 ≤ round2 q := by
  unfold round2
  have h : (0 : Int) ≤ roundHalfEven (q * 100) :=
    roundHalfEven_nonneg _ (by positivity)
  positivity

theorem round2_le_10000 (q : Rat) (hq : q ≤ 10000) : round2 q ≤ 10000 := by
  unfold round2
  have h : roundHalfEven (q * 100) ≤ 1000000 := by
    apply roundHalfEven_le
    push_cast
    linarith
  rw [div_le_iff (by norm_num : (0 : Rat) < 100)]
  calc ((roundHalfEven (q * 100) : Int) : Rat) ≤ ((1000000 : Int) : Rat) := by
        exact_mod_cast h
    _ = 10000 * 100 := by norm_num

theorem round2_two_decimals (q : Rat) : (round2 q * 100).den = 1 := by
  unfold round2
  rw [div_mul_cancel₀ _ (by norm_num : (100 : Rat) ≠ 0)]
  exact Rat.den_intCast _

/-- Claim C4 (corrected): a successfully constructed `TradeData` satisfies
every stated field constraint except strict price positivity: the `gt`/`le`
bounds are enforced on the raw price before the rounding validator runs, so
the stored price is the two-decimal rounding of a raw value in `(0, 10000]`,
which gives `0 ≤ price ≤ 10000` with at most two fractional digits but
allows `price = 0` for raw prices below `0.005`.  All other constraints
hold as claimed, and any input violating the raw field constraints is
rejected with a validation error instead of producing a record. -/
theorem c4_construction (event_time : Rat) (event_id : Nat) (ticker : String)
    (price : Rat) (volume : Int) (trade_type : String) (trade_id : Nat)
    (market_code : String) (currency_code : String) :
    (∀ t, mkTradeData event_time event_id ticker price volume trade_type
        trade_id market_code currency_code = .ok t →
      t.price = round2 price ∧ 0 ≤ t.price ∧ t.price ≤ 10000 ∧
      (t.price * 100).den = 1 ∧
      0 < t.volume ∧ t.volume ≤ 1000000 ∧
      1 ≤ t.ticker.length ∧ t.ticker.length ≤ 10 ∧ noLower t.ticker = true ∧
      t.currency_code.length = 3 ∧ noLower t.currency_code = true ∧
      (t.trade_type = "BUY" ∨ t.trade_type = "SELL") ∧
      1 ≤ t.market_code.length ∧ t.market_code.length ≤ 20) ∧
    ((¬(1 ≤ ticker.length ∧ ticker.length ≤ 10) ∨
      ¬(0 < price ∧ price ≤ 10000) ∨
      ¬(0 < volume ∧ volume ≤ 1000000) ∨
      ¬(trade_type = "BUY" ∨ trade_type = "SELL") ∨
      ¬(1 ≤ market_code.length ∧ market_code.length ≤ 20) ∨
      ¬(currency_code.length = 3)) →
      (mkTradeData event_time event_id ticker price volume trade_type
        trade_id market_code currency_code).isOk = false) := by
  constructor
  · intro t hok
    unfold mkTradeData at hok
    split_ifs at hok with h1 h2 h3 h4 h5 h6
    injection hok with hok
    subst hok
    refine ⟨rfl, round2_nonneg price h2.1.le, round2_le_10000 price h2.2,
      round2_two_decimals price, h3.1, h3.2, ?_, ?_, noLower_pyUpper ticker,
      ?_, noLower_pyUpper currency_code, h4, h5.1, h5.2⟩
    · simpa [pyUpper_length] using h1.1
    · simpa [pyUpper_length] using h1.2
    · simpa [pyUpper_length] using h6
  · intro hbad
    unfold mkTradeData
    split_ifs with h1 h2 h3 h4 h5 h6
    · tauto
    all_goals rfl

/-- The record built by a successful concrete construction, for the C4
witness. -/
def tradeW : TradeData :=
  { event_time := 0, event_id := 0, ticker := "AAPL", price := round2 5,
    volume := 10, trade_type := "BUY", trade_id := 0,
    market_code := "NASDAQ", currency_code := "USD" }

/-- Witness for claim C4's amended statement at a concrete valid input. -/
theorem c4_construction_witness :
    tradeW.price = round2 5 ∧ 0 ≤ tradeW.price ∧ tradeW.price ≤ 10000 ∧
    (tradeW.price * 100).den = 1 ∧
    0 < tradeW.volume ∧ tradeW.volume ≤ 1000000 ∧
    1 ≤ tradeW.ticker.length ∧ tradeW.ticker.length ≤ 10 ∧
    noLower tradeW.ticker = true ∧
    tradeW.currency_code.length = 3 ∧ noLower tradeW.currency_code = true ∧
    (tradeW.trade_type = "BUY" ∨ tradeW.trade_type = "SELL") ∧
    1 ≤ tradeW.market_code.length ∧ tradeW.market_code.length ≤ 20 :=
  (c4_construction 0 0 "aapl" 5 10 "BUY" 0 "NASDAQ" "usd").1 tradeW
    (by with_unfolding_all decide)

/-- Counterexample to claim C4 as stated: the raw price `0.001` passes the
`gt=0` bound, the rounding validator then turns it into `0.0`, and the
record is constructed successfully with `price = 0`, violating
`price > 0`. -/
theorem c4_counterexample :
    (mkTradeData 0 0 "AAPL" (1 / 1000) 500 "BUY" 0 "NASDAQ" "USD").map
      TradeData.price = .ok 0 ∧
    Except.isOk (mkTradeData 0 0 "AAPL" (1 / 1000) 500 "BUY" 0 "NASDAQ" "USD") = true ∧
    ¬ ((0 : Rat) < 0) := by
  refine ⟨?_, ?_, by norm_num⟩
  · with_unfolding_all decide
  · with_unfolding_all decide

/-- An abstract NumPy generator stream, as produced by
`np.random.default_rng(seed)`: `u n` is the n-th unit uniform draw in
`[0, 1)` and `g n` the n-th raw integer draw.  Each vectorized NumPy call
consumes consecutive positions of the stream. -/
structure Rng where
  u : Nat → Rat
  g : Nat → Nat

/-- The configuration consumed by `StockDataGenerator`: the numeric ranges
from `get_config("stock_generator", "data_ranges", ...)` and the instance
fields `tickers`, `trade_types`, `market_code`, `currency_code`. -/
structure GenCfg where
  price_min : Rat
  price_max : Rat
  volume_min : Int
  volume_max : Int
  tickers : List String
  trade_types : List String
  market_code : String
  currency_code : String
deriving DecidableEq

/-- The vectorized per-second arrays generated inside the
`for second, size in enumerate(second_sizes)` loop of
`generate_distributed_trades` (stock_generator.py lines 242-258):
`time_within_second` holds the `rng.uniform(0, 0.999, size)` jitters and
the remaining fields the per-record prices, volumes and choice indices. -/
structure BucketData where
  second : Nat
  time_within_second : List Rat
  prices : List Rat
  volumes : List Int
  ticker_indices : List Nat
  trade_type_indices : List Nat
deriving DecidableEq

/-- A NumPy `integers(lo, hi)` draw (half-open interval) from one raw
stream value. -/
def integersDraw (lo hi : Int) (raw : Nat) : Int :=
  lo + (raw : Int) % (hi - lo)

/-- The five vectorized NumPy calls for one bucket with positive `size`,
starting at position `pos` of the generator stream:
`uniform(0, 0.999, size)`, `np.round(uniform(price_min, price_max, size), 2)`,
`integers(volume_min, volume_max + 1, size)`,
`integers(0, len(tickers), size)` and `integers(0, len(trade_types), size)`. -/
def mkBucket (cfg : GenCfg) (rng : Rng) (pos second size : Nat) : BucketData where
  second := second
  time_within_second :=
    (List.range size).map fun i => 999 / 1000 * rng.u (pos + i)
  prices :=
    (List.range size).map fun i =>
      round2 (cfg.price_min + (cfg.price_max - cfg.price_min) * rng.u (pos + size + i))
  volumes :=
    (List.range size).map fun i =>
      integersDraw cfg.volume_min (cfg.volume_max + 1) (rng.g (pos + 2 * size + i))
  ticker_indices :=
    (List.range size).map fun i => rng.g (pos + 3 * size + i) % cfg.tickers.length
  trade_type_indices :=
    (List.range size).map fun i => rng.g (pos + 4 * size + i) % cfg.trade_types.length

/-- The `for second, size in enumerate(second_sizes)` loop of
`generate_distributed_trades`, restricted to its vectorized random-array
stage: buckets with non-positive size are skipped entirely (no stream
positions are consumed, as no NumPy call is made for them). -/
def bucketArrays (cfg : GenCfg) (rng : Rng) : List Int → Nat → Nat → List BucketData
  | [], _, _ => []
  | size :: rest, second, pos =>
    if 0 < size then
      mkBucket cfg rng pos second size.toNat ::
        bucketArrays cfg rng rest (second + 1) (pos + 5 * size.toNat)
    else
      bucketArrays cfg rng rest (second + 1) pos

/-- One bucket's per-record rows: jitter, price, volume, ticker index and
trade-type index for each `i in range(size)`. -/
def bucketRows (bd : BucketData) : List (Rat × Rat × Int × Nat × Nat) :=
  bd.time_within_second.zip (bd.prices.zip (bd.volumes.zip
    (bd.ticker_indices.zip bd.trade_type_indices)))

/-- The `for i in range(size)` construction loop of
`generate_distributed_trades` (stock_generator.py lines 261-277) for one
bucket: each row is turned into a validated `TradeData` whose event time is
`base_timestamp + (second + 1) + jitter`, with `uuid7()` and `uuid4()`
modelled by the streams `uuid7s`/`uuid4s` indexed by the running record
count.  A validation failure aborts the whole call, as the raised
`ValidationError` would. -/
def buildRows (cfg : GenCfg) (base_timestamp : Rat) (second : Nat)
    (uuid7s uuid4s : Nat → Nat) :
    Nat → List (Rat × Rat × Int × Nat × Nat) → Except String (List TradeData)
  | _, [] => .ok []
  | idx, (j, pr, vo, ti, yi) :: rest =>
    match mkTradeData (base_timestamp + ((second : Rat) + 1) + j) (uuid7s idx)
        (cfg.tickers.getD ti "") pr vo (cfg.trade_types.getD yi "") (uuid4s idx)
        cfg.market_code cfg.currency_code with
    | .error e => .error e
    | .ok t =>
      match buildRows cfg base_timestamp second uuid7s uuid4s (idx + 1) rest with
      | .error e => .error e
      | .ok ts => .ok (t :: ts)

/-- Record construction over all buckets, concatenating per-bucket record
lists in bucket order (`all_trades` in the source). -/
def buildTrades (cfg : GenCfg) (base_timestamp : Rat) (uuid7s uuid4s : Nat → Nat) :
    Nat → List BucketData → Except String (List TradeData)
  | _, [] => .ok []
  | idx, bd :: rest =>
    match buildRows cfg base_timestamp bd.second uuid7s uuid4s idx (bucketRows bd) with
    | .error e => .error e
    | .ok ts =>
      match buildTrades cfg base_timestamp uuid7s uuid4s (idx + (bucketRows bd).length) rest with
      | .error e => .error e
      | .ok ts2 => .ok (ts ++ ts2)

/-- The random-array stage of `generate_distributed_trades`: the generator
is reseeded with the constant 42 (`rng = np.random.default_rng(42)`,
stock_generator.py line 238) and the vectorized arrays are produced from
the allocated bucket sizes. -/
def distributed_buckets (default_rng : Nat → Rng) (cfg : GenCfg)
    (rand : Nat → Nat → Nat) (total : Int) : List BucketData :=
  bucketArrays cfg (default_rng 42) (second_sizes rand total) 0 0

/-- `StockDataGenerator.generate_distributed_trades`
(stock_generator.py lines 207-282): allocate bucket sizes with the global
`random` module, reseed NumPy with 42, generate the vectorized arrays and
construct the validated records. -/
def generate_distributed_trades (default_rng : Nat → Rng)
    (rand : Nat → Nat → Nat) (cfg : GenCfg) (base_timestamp : Rat)
    (uuid7s uuid4s : Nat → Nat) (total : Int) : Except String (List TradeData) :=
  buildTrades cfg base_timestamp uuid7s uuid4s 0
    (distributed_buckets default_rng cfg rand total)

theorem second_sizes_length (rand : Nat → Nat → Nat) (total : Int) :
    (second_sizes rand total).length = 10 := by
  simp [second_sizes, allocFirst_length]

theorem mkTradeData_ok_event_time {et : Rat} {ei : Nat} {tk : String}
    {pr : Rat} {vo : Int} {ty : String} {ti : Nat} {mc cc : String}
    {t : TradeData}
    (h : mkTradeData et ei tk pr vo ty ti mc cc = .ok t) : t.event_time = et := by
  unfold mkTradeData at h
  split_ifs at h
  injection h with h
  subst h
  rfl

theorem buildRows_event_time (cfg : GenCfg) (b : Rat) (second : Nat)
    (uuid7s uuid4s : Nat → Nat) :
    ∀ (rows : List (Rat × Rat × Int × Nat × Nat)) (idx : Nat) (ts : List TradeData),
      buildRows cfg b second uuid7s uuid4s idx rows = .ok ts →
      ∀ t ∈ ts, ∃ r ∈ rows, t.event_time = b + ((second : Rat) + 1) + r.1 := by
  intro rows
  induction rows with
  | nil =>
    intro idx ts h t ht
    simp only [buildRows] at h
    injection h with h
    subst h
    simp at ht
  | cons r rest ih =>
    intro idx ts h t ht
    obtain ⟨j, pr, vo, ti, yi⟩ := r
    simp only [buildRows] at h
    cases hm : mkTradeData (b + ((second : Rat) + 1) + j) (uuid7s idx)
        (cfg.tickers.getD ti "") pr vo (cfg.trade_types.getD yi "") (uuid4s idx)
        cfg.market_code cfg.currency_code with
    | error e => rw [hm] at h; simp at h
    | ok t0 =>
      rw [hm] at h
      cases hr : buildRows cfg b second uuid7s uuid4s (idx + 1) rest with
      | error e => rw [hr] at h; simp at h
      | ok ts2 =>
        rw [hr] at h
        injection h with h
        subst h
        rcases List.mem_cons.mp ht with rfl | ht2
        · exact ⟨(j, pr, vo, ti, yi), List.mem_cons_self _ _,
            mkTradeData_ok_event_time hm⟩
        · obtain ⟨r2, hr2, he⟩ := ih (idx + 1) ts2 hr t ht2
          exact ⟨r2, List.mem_cons_of_mem _ hr2, he⟩

theorem buildTrades_event_time (cfg : GenCfg) (b : Rat) (uuid7s uuid4s : Nat → Nat) :
    ∀ (buckets : List BucketData) (idx : Nat) (ts : List TradeData),
      buildTrades cfg b uuid7s uuid4s idx buckets = .ok ts →
      ∀ t ∈ ts, ∃ bd ∈ buckets, ∃ r ∈ bucketRows bd,
        t.event_time = b + ((bd.second : Rat) + 1) + r.1 := by
  intro buckets
  induction buckets with
  | nil =>
    intro idx ts h t ht
    simp only [buildTrades] at h
    injection h with h
    subst h
    simp at ht
  | cons bd rest ih =>
    intro idx ts h t ht
    simp only [buildTrades] at h
    cases hb : buildRows cfg b bd.second uuid7s uuid4s idx (bucketRows bd) with
    | error e => rw [hb] at h; simp at h
    | ok ts1 =>
      rw [hb] at h
      cases hr : buildTrades cfg b uuid7s uuid4s (idx + (bucketRows bd).length) rest with
      | error e => rw [hr] at h; simp at h
      | ok ts2 =>
        rw [hr] at h
        injection h with h
        subst h
        rcases List.mem_append.mp ht with ht1 | ht2
        · obtain ⟨r, hrmem, he⟩ :=
            buildRows_event_time cfg b bd.second uuid7s uuid4s
              (bucketRows bd) idx ts1 hb t ht1
          exact ⟨bd, List.mem_cons_self _ _, r, hrmem, he⟩
        · obtain ⟨bd2, hbd2, r, hrmem, he⟩ := ih _ ts2 hr t ht2
          exact ⟨bd2, List.mem_cons_of_mem _ hbd2, r, hrmem, he⟩

theorem bucketArrays_second (cfg : GenCfg) (rng : Rng) :
    ∀ (sizes : List Int) (s0 pos : Nat),
      ∀ bd ∈ bucketArrays cfg rng sizes s0 pos,
        s0 ≤ bd.second ∧ bd.second < s0 + sizes.length := by
  intro sizes
  induction sizes with
  | nil => intro s0 pos bd h; simp [bucketArrays] at h
  | cons size rest ih =>
    intro s0 pos bd h
    simp only [bucketArrays] at h
    by_cases hs : 0 < size
    · rw [if_pos hs] at h
      rcases List.mem_cons.mp h with rfl | h2
      · have hsec : (mkBucket cfg rng pos s0 size.toNat).second = s0 := rfl
        rw [hsec]
        simp only [List.length_cons]
        omega
      · have := ih (s0 + 1) _ bd h2
        simp only [List.length_cons]
        omega
    · rw [if_neg hs] at h
      have := ih (s0 + 1) pos bd h
      simp only [List.length_cons]
      omega

theorem bucketArrays_jitter (cfg : GenCfg) (rng : Rng)
    (hu : ∀ n, 0 ≤ rng.u n ∧ rng.u n < 1) :
    ∀ (sizes : List Int) (s0 pos : Nat),
      ∀ bd ∈ bucketArrays cfg rng sizes s0 pos,
        ∀ j ∈ bd.time_within_second, 0 ≤ j ∧ j < 999 / 1000 := by
  intro sizes
  induction sizes with
  | nil => intro s0 pos bd h; simp [bucketArrays] at h
  | cons size rest ih =>
    intro s0 pos bd h j hj
    simp only [bucketArrays] at h
    by_cases hs : 0 < size
    · rw [if_pos hs] at h
      rcases List.mem_cons.mp h with rfl | h2
      · have hj2 : j ∈ (List.range size.toNat).map
            (fun i => 999 / 1000 * rng.u (pos + i)) := hj
        obtain ⟨i, _, rfl⟩ := List.mem_map.mp hj2
        obtain ⟨hu0, hu1⟩ := hu (pos + i)
        refine ⟨by positivity, ?_⟩
        have hmul := mul_lt_mul_of_pos_left hu1
          (show (0 : Rat) < 999 / 1000 by norm_num)
        simpa using hmul
      · exact ih (s0 + 1) (pos + 5 * size.toNat) bd h2 j hj
    · rw [if_neg hs] at h
      exact ih (s0 + 1) pos bd h j hj

/-- Claim C6 (corrected): every generated record's event time lies in the
half-open interval `[T0 + bucket_index, T0 + bucket_index + 0.999)` with
`bucket_index` between 1 and 10.  The jitter is drawn from `[0, 0.999)`
(`rng.uniform(0, 0.999, size)`), so a jitter of 0 puts the event time
exactly at `T0 + bucket_index` — not strictly after it as the claim states —
and the event time is always strictly below `T0 + bucket_index + 0.999`,
hence never reaches `T0 + bucket_index + 1`. -/
theorem c6_event_time_window (default_rng : Nat → Rng) (rand : Nat → Nat → Nat)
    (cfg : GenCfg) (base_timestamp : Rat) (uuid7s uuid4s : Nat → Nat)
    (total : Int) (ts : List TradeData)
    (hu : ∀ n, 0 ≤ (default_rng 42).u n ∧ (default_rng 42).u n < 1)
    (hok : generate_distributed_trades default_rng rand cfg base_timestamp
      uuid7s uuid4s total = .ok ts) :
    ∀ t ∈ ts, ∃ bucket : Nat, 1 ≤ bucket ∧ bucket ≤ 10 ∧
      base_timestamp + (bucket : Rat) ≤ t.event_time ∧
      t.event_time < base_timestamp + (bucket : Rat) + 999 / 1000 := by
  intro t ht
  obtain ⟨bd, hbd, r, hrmem, he⟩ :=
    buildTrades_event_time cfg base_timestamp uuid7s uuid4s
      (distributed_buckets default_rng cfg rand total) 0 ts hok t ht
  have hsec := bucketArrays_second cfg (default_rng 42)
    (second_sizes rand total) 0 0 bd hbd
  have hlen := second_sizes_length rand total
  obtain ⟨j, rrest⟩ := r
  have hjmem : j ∈ bd.time_within_second := (List.mem_zip hrmem).1
  obtain ⟨hj0, hj1⟩ := bucketArrays_jitter cfg (default_rng 42) hu
    (second_sizes rand total) 0 0 bd hbd j hjmem
  refine ⟨bd.second + 1, by omega, by omega, ?_, ?_⟩
  · rw [he]
    push_cast
    linarith
  · rw [he]
    push_cast
    linarith

/-- The all-zero NumPy stream, used as a concrete generator instance. -/
def rng0 : Rng := ⟨fun _ => 0, fun _ => 0⟩

/-- A concrete valid generator configuration for witnesses. -/
def cfgW : GenCfg :=
  { price_min := 100, price_max := 100, volume_min := 1, volume_max := 1,
    tickers := ["AAPL"], trade_types := ["BUY"],
    market_code := "NASDAQ", currency_code := "USD" }

/-- The first record produced by the concrete run of
`generate_distributed_trades` with total 2, zero draws and maximal
allocation draws. -/
def tradeA : TradeData :=
  { event_time := 1, event_id := 0, ticker := "AAPL", price := 100,
    volume := 1, trade_type := "BUY", trade_id := 0,
    market_code := "NASDAQ", currency_code := "USD" }

/-- The second record of the same concrete run, in the last bucket. -/
def tradeB : TradeData :=
  { event_time := 10, event_id := 1, ticker := "AAPL", price := 100,
    volume := 1, trade_type := "BUY", trade_id := 1,
    market_code := "NASDAQ", currency_code := "USD" }

/-- Witness for claim C6's amended statement at the concrete zero-jitter run. -/
theorem c6_event_time_window_witness :
    ∃ bucket : Nat, 1 ≤ bucket ∧ bucket ≤ 10 ∧
      (0 : Rat) + (bucket : Rat) ≤ tradeA.event_time ∧
      tradeA.event_time < (0 : Rat) + (bucket : Rat) + 999 / 1000 :=
  c6_event_time_window (fun _ => rng0) (fun _ m => m) cfgW 0 id id 2
    [tradeA, tradeB] (fun _ => ⟨le_refl 0, by norm_num [rng0]⟩)
    (by with_unfolding_all decide) tradeA (by decide)

/-- Counterexample to claim C6 as stated: with a zero jitter draw the first
generated record has `event_time = 1 = T0 + bucket_index` (here `T0 = 0`,
bucket_index 1), which is not strictly after `T0 + bucket_index`. -/
theorem c6_counterexample :
    (generate_distributed_trades (fun _ => rng0) (fun _ m => m) cfgW 0 id id 2).map
      (List.map TradeData.event_time) = .ok [1, 10] ∧
    ¬ ((0 : Rat) + 1 < 1) := by
  constructor
  · with_unfolding_all decide
  · norm_num

theorem allocFirst_le_one (rand : Nat → Nat → Nat) :
    ∀ (n i : Nat) (r : Int), r ≤ 1 →
      allocFirst rand n i r = (List.replicate n 0, r) := by
  intro n
  induction n with
  | zero => intro i r _; rfl
  | succ m ih =>
    intro i r hr
    simp only [allocFirst, if_pos hr, ih i r hr, List.replicate_succ]

theorem bucketArrays_nonpos (cfg : GenCfg) (rng : Rng) :
    ∀ (sizes : List Int), (∀ s ∈ sizes, s ≤ 0) →
      ∀ (s0 pos : Nat), bucketArrays cfg rng sizes s0 pos = [] := by
  intro sizes
  induction sizes with
  | nil => intro _ s0 pos; rfl
  | cons size rest ih =>
    intro h s0 pos
    have hsize : size ≤ 0 := h size (List.mem_cons_self _ _)
    have hrest : ∀ s ∈ rest, s ≤ 0 := fun s hs => h s (List.mem_cons_of_mem _ hs)
    simp only [bucketArrays, if_neg (not_lt.mpr hsize)]
    exact ih hrest (s0 + 1) pos

/-- Claim C7 (corrected): `generate_distributed_trades` performs no
validation of `total_count`.  A negative total makes every `remaining <= 1`
test succeed, so the first nine buckets are allocated 0, the final bucket
absorbs the negative remainder, no bucket passes the `size > 0` guard, and
the call returns an empty batch successfully instead of failing with an
`InvalidArgument` error. -/
theorem c7_negative_total (default_rng : Nat → Rng) (rand : Nat → Nat → Nat)
    (cfg : GenCfg) (base_timestamp : Rat) (uuid7s uuid4s : Nat → Nat)
    (total : Int) (h : total < 0) :
    generate_distributed_trades default_rng rand cfg base_timestamp
      uuid7s uuid4s total = .ok [] ∧
    second_sizes rand total = List.replicate 9 0 ++ [total] := by
  have hs : second_sizes rand total = List.replicate 9 0 ++ [total] := by
    simp [second_sizes, allocFirst_le_one rand 9 0 total (by omega)]
  refine ⟨?_, hs⟩
  unfold generate_distributed_trades distributed_buckets
  rw [hs, bucketArrays_nonpos]
  · rfl
  · intro s hmem
    rcases List.mem_append.mp hmem with hmem | hmem
    · rw [List.eq_of_mem_replicate hmem]
    · rw [List.mem_singleton.mp hmem]
      omega

/-- Witness for claim C7's amended statement at total `-1`. -/
theorem c7_negative_total_witness :
    generate_distributed_trades (fun _ => rng0) (fun _ _ => 0) cfgW 0 id id (-1) =
      .ok [] ∧
    second_sizes (fun _ _ => 0) (-1) = List.replicate 9 0 ++ [-1] :=
  c7_negative_total (fun _ => rng0) (fun _ _ => 0) cfgW 0 id id (-1) (by norm_num)

/-- Counterexample to claim C7 as stated: called with the negative total
`-1`, `generate_distributed_trades` returns a successful (empty) result
rather than failing with an `InvalidArgument` error. -/
theorem c7_counterexample :
    Except.isOk (generate_distributed_trades (fun _ => rng0) (fun _ _ => 0)
      cfgW 0 id id (-1)) = true ∧
    generate_distributed_trades (fun _ => rng0) (fun _ _ => 0) cfgW 0 id id (-1) =
      .ok [] := by
  constructor
  · with_unfolding_all decide
  · with_unfolding_all decide

/-- Claim C10 (confirmed): `generate_distributed_trades` reseeds its NumPy
generator with the constant 42 on every call
(`rng = np.random.default_rng(42)`), so any two calls whose per-second
bucket-size lists agree produce identical vectorized arrays — the same
jitter fractions, prices, volumes, ticker indices and trade-type indices —
and each call's batch is a function of those shared arrays together with
only its own base time and uuid streams. -/
theorem c10_fixed_seed (default_rng : Nat → Rng) (cfg : GenCfg)
    (rand1 rand2 : Nat → Nat → Nat) (total1 total2 : Int)
    (b1 b2 : Rat) (u71 u41 u72 u42 : Nat → Nat)
    (h : second_sizes rand1 total1 = second_sizes rand2 total2) :
    distributed_buckets default_rng cfg rand1 total1 =
      distributed_buckets default_rng cfg rand2 total2 ∧
    distributed_buckets default_rng cfg rand1 total1 =
      bucketArrays cfg (default_rng 42) (second_sizes rand1 total1) 0 0 ∧
    generate_distributed_trades default_rng rand1 cfg b1 u71 u41 total1 =
      buildTrades cfg b1 u71 u41 0 (distributed_buckets default_rng cfg rand1 total1) ∧
    generate_distributed_trades default_rng rand2 cfg b2 u72 u42 total2 =
      buildTrades cfg b2 u72 u42 0 (distributed_buckets default_rng cfg rand1 total1) := by
  have h1 : distributed_buckets default_rng cfg rand1 total1 =
      distributed_buckets default_rng cfg rand2 total2 := by
    unfold distributed_buckets
    rw [h]
  refine ⟨h1, rfl, rfl, ?_⟩
  rw [h1]
  rfl

/-- Witness for claim C10 at two concrete calls sharing bucket sizes but
differing in base time and uuid streams. -/
theorem c10_fixed_seed_witness :
    distributed_buckets (fun _ => rng0) cfgW (fun _ m => m) 5 =
      distributed_buckets (fun _ => rng0) cfgW (fun _ m => m) 5 ∧
    distributed_buckets (fun _ => rng0) cfgW (fun _ m => m) 5 =
      bucketArrays cfgW ((fun _ => rng0) 42) (second_sizes (fun _ m => m) 5) 0 0 ∧
    generate_distributed_trades (fun _ => rng0) (fun _ m => m) cfgW 0 id id 5 =
      buildTrades cfgW 0 id id 0 (distributed_buckets (fun _ => rng0) cfgW (fun _ m => m) 5) ∧
    generate_distributed_trades (fun _ => rng0) (fun _ m => m) cfgW 7 (fun n => n + 1) (fun n => n + 2) 5 =
      buildTrades cfgW 7 (fun n => n + 1) (fun n => n + 2) 0
        (distributed_buckets (fun _ => rng0) cfgW (fun _ m => m) 5) :=
  c10_fixed_seed (fun _ => rng0) cfgW (fun _ m => m) (fun _ m => m) 5 5 0 7
    id id (fun n => n + 1) (fun n => n + 2) rfl

/-- The candle payload of `stock_realtime_socket.py` (`TickData`): both
fields are set to the single latest price. -/
structure TickData where
  high : Rat
  low : Rat
deriving DecidableEq

/-- A JSON value as exchanged over the websocket: strings, integers, a
candle payload, or `null`. -/
inductive JVal where
  | s (v : String)
  | i (v : Int)
  | candle (d : TickData)
  | null
deriving DecidableEq

/-- The per-connection streamer state (`StockStreamer.__init__`): the
current subscription ticker and tick interval.  The fields hold raw JSON
values because `listen_for_tick_updates` assigns whatever the inbound
message carries, without conversion. -/
structure StockStreamer where
  ticker : JVal
  tick : JVal
deriving DecidableEq

/-- The outcome of one iteration of the `while True` body of
`StockStreamer.stream_data`: either a tick message is sent and the loop
sleeps and continues, or an exception escaped the body — the `try` wraps
the whole loop, so the exception ends the loop, is logged by the outer
handler, and the coroutine returns. -/
inductive PushOutcome where
  | sent (msg : List (String × JVal))
  | stopped (err : String)
deriving DecidableEq

/-- Whether the push loop proceeds to its next iteration after this
outcome. -/
def PushOutcome.continues : PushOutcome → Bool
  | .sent _ => true
  | .stopped _ => false

/-- The message sent by `stream_data` when the store query returned a row
(stock_realtime_socket.py lines 77-84). -/
def candle_tick_message (st : StockStreamer) (d : TickData) : List (String × JVal) :=
  [("type", JVal.s "candle_tick"), ("ticker", st.ticker),
   ("data", JVal.candle d), ("current_tick", st.tick)]

/-- The message sent by `stream_data` when the store query returned no row
(stock_realtime_socket.py lines 87-94): the null payload is stored under
the key `message`, and no `data` key is present. -/
def no_data_tick_message (st : StockStreamer) : List (String × JVal) :=
  [("type", JVal.s "candle_tick"), ("ticker", st.ticker),
   ("message", JVal.null), ("current_tick", st.tick)]

/-- One iteration of the push loop `StockStreamer.stream_data`
(stock_realtime_socket.py lines 56-98).  The store read is modelled by its
result: an error (any exception raised while querying), a latest price row,
or no row.  An error propagates out of the `while` loop to the surrounding
`try`/`except`, stopping the loop. -/
def stream_data_step (st : StockStreamer) (fetch : Except String (Option Rat)) :
    PushOutcome :=
  match fetch with
  | .error e => .stopped e
  | .ok (some price) => .sent (candle_tick_message st ⟨price, price⟩)
  | .ok none => .sent (no_data_tick_message st)

/-- One inbound event of the listen loop: a received JSON message, the
60-second `asyncio.wait_for` timeout, or a receive failure (any exception
raised by `receive_json`). -/
inductive ListenEvent where
  | msg (fields : List (String × JVal))
  | timeout
  | recvFailure (e : String)

/-- One iteration of `StockStreamer.listen_for_tick_updates`
(stock_realtime_socket.py lines 33-54): returns the updated streamer state
and whether the loop continues.  A timeout continues; a receive failure
breaks; a message missing `ticker` raises `KeyError` before any assignment
and breaks; a message with `ticker` but no `tick` assigns the ticker, then
raises `KeyError` and breaks; a message with both keys updates both fields
and continues. -/
def listen_step (st : StockStreamer) (ev : ListenEvent) : StockStreamer × Bool :=
  match ev with
  | .timeout => (st, true)
  | .recvFailure _ => (st, false)
  | .msg fields =>
    match fields.lookup "ticker" with
    | none => (st, false)
    | some tv =>
      match fields.lookup "tick" with
      | none => ({ st with ticker := tv }, false)
      | some kv => ({ ticker := tv, tick := kv }, true)

/-- Claim C2 (corrected): when no stored record exists for the current
ticker, the push loop sends (and does not raise or stop)
`{ type: "candle_tick", ticker, message: null, current_tick }` — the null
payload is carried under the key `message`, and the message has no `data`
key at all, unlike the claimed `{data: null}` shape. -/
theorem c2_null_payload (st : StockStreamer) :
    stream_data_step st (.ok none) = .sent (no_data_tick_message st) ∧
    no_data_tick_message st =
      [("type", JVal.s "candle_tick"), ("ticker", st.ticker),
       ("message", JVal.null), ("current_tick", st.tick)] ∧
    (no_data_tick_message st).map Prod.fst =
      ["type", "ticker", "message", "current_tick"] ∧
    (stream_data_step st (.ok none)).continues = true :=
  ⟨rfl, rfl, rfl, rfl⟩

/-- Counterexample to claim C2 as stated: the no-data tick message has no
`data` field — the null payload is under the key `message` instead. -/
theorem c2_counterexample :
    (no_data_tick_message ⟨JVal.s "AAPL", JVal.i 2⟩).lookup "data" = none ∧
    (no_data_tick_message ⟨JVal.s "AAPL", JVal.i 2⟩).lookup "message" =
      some JVal.null ∧
    stream_data_step ⟨JVal.s "AAPL", JVal.i 2⟩ (.ok none) =
      .sent (no_data_tick_message ⟨JVal.s "AAPL", JVal.i 2⟩) := by
  refine ⟨?_, ?_, rfl⟩ <;> decide

/-- Claim C3 (corrected): a control message that violates the field
constraints (missing `ticker` or `tick`) raises `KeyError`, which is caught
by the inner `except Exception` handler that logs the error and executes
`break` — the listen loop exits rather than continuing.  Only the
`asyncio.TimeoutError` branch continues the loop; a receive failure also
exits. -/
theorem c3_malformed_control (st : StockStreamer) (fields : List (String × JVal))
    (h : fields.lookup "ticker" = none ∨ fields.lookup "tick" = none) :
    (listen_step st (.msg fields)).2 = false ∧
    listen_step st .timeout = (st, true) ∧
    (∀ e, listen_step st (.recvFailure e) = (st, false)) := by
  refine ⟨?_, rfl, fun e => rfl⟩
  rcases h with h | h
  · simp [listen_step, h]
  · cases hm : fields.lookup "ticker" with
    | none => simp [listen_step, hm]
    | some tv => simp [listen_step, hm, h]

/-- Witness for claim C3's amended statement at a concrete message with
neither required key. -/
theorem c3_malformed_control_witness :
    (listen_step ⟨JVal.s "AAPL", JVal.i 2⟩ (.msg [("foo", JVal.i 1)])).2 = false ∧
    listen_step ⟨JVal.s "AAPL", JVal.i 2⟩ .timeout = (⟨JVal.s "AAPL", JVal.i 2⟩, true) ∧
    (∀ e, listen_step ⟨JVal.s "AAPL", JVal.i 2⟩ (.recvFailure e) =
      (⟨JVal.s "AAPL", JVal.i 2⟩, false)) :=
  c3_malformed_control ⟨JVal.s "AAPL", JVal.i 2⟩ [("foo", JVal.i 1)]
    (Or.inl (by decide))

/-- Counterexample to claim C3 as stated: on a message missing both keys
the listen loop does not continue — the iteration reports `false`
(loop exit), not `true`. -/
theorem c3_counterexample :
    listen_step ⟨JVal.s "AAPL", JVal.i 2⟩ (.msg [("foo", JVal.i 1)]) =
      (⟨JVal.s "AAPL", JVal.i 2⟩, false) ∧
    (listen_step ⟨JVal.s "AAPL", JVal.i 2⟩ (.msg [("foo", JVal.i 1)])).2 ≠ true := by
  constructor <;> decide

/-- Claim C8 (corrected): the `try` of `stream_data` wraps the entire
`while True` loop, so a failing store read raises out of the loop body,
ends the loop, and is logged by the outer handler — the session's push loop
terminates instead of skipping the tick and continuing. -/
theorem c8_store_error_stops (st : StockStreamer) (e : String) :
    stream_data_step st (.error e) = .stopped e ∧
    (stream_data_step st (.error e)).continues = false :=
  ⟨rfl, rfl⟩

/-- Counterexample to claim C8 as stated: a store read error does not let
the push loop continue to its next iteration — the loop stops. -/
theorem c8_counterexample :
    stream_data_step ⟨JVal.s "AAPL", JVal.i 2⟩ (.error "StoreError: read failed") =
      .stopped "StoreError: read failed" ∧
    (stream_data_step ⟨JVal.s "AAPL", JVal.i 2⟩
      (.error "StoreError: read failed")).continues = false := by
  constructor <;> decide

/-- The database row for one trade (`TradeData.to_tuple`,
stock_generator.py lines 61-73). -/
def TradeData.to_tuple (t : TradeData) :
    Rat × Nat × String × Rat × Int × String × Nat × String × String :=
  (t.event_time, t.event_id, t.ticker, t.price, t.volume, t.trade_type,
   t.trade_id, t.market_code, t.currency_code)

/-- One store operation performed by the bulk loader: the COPY-based bulk
path (`copy_records_to_table`) or the row-oriented fallback
(`executemany`). -/
inductive StoreOp where
  | copyRecords (table : String)
      (rows : List (Rat × Nat × String × Rat × Int × String × Nat × String × String))
  | execMany
      (rows : List (Rat × Nat × String × Rat × Int × String × Nat × String × String))

/-- `StockDataInserter._insert_trades_fallback` (stock_generator.py lines
333-350): submit all rows through `executemany`; on success return the
input length, on failure re-raise.  The store's response is modelled by
`execResult`; the returned trace records the attempted operation. -/
def insert_trades_fallback (trades : List TradeData)
    (execResult : Except String Unit) : Except String Nat × List StoreOp :=
  let tuples := trades.map TradeData.to_tuple
  match execResult with
  | .ok _ => (.ok trades.length, [.execMany tuples])
  | .error e => (.error e, [.execMany tuples])

/-- `StockDataInserter.insert_trades_batch` (stock_generator.py lines
289-331): an empty batch returns 0 without touching the store; otherwise
the COPY bulk path is attempted and, if it raises, the same records are
re-submitted through the fallback. -/
def insert_trades_batch (trades : List TradeData)
    (copyResult execResult : Except String Unit) : Except String Nat × List StoreOp :=
  if trades.isEmpty then (.ok 0, [])
  else
    let tuples := trades.map TradeData.to_tuple
    match copyResult with
    | .ok _ => (.ok trades.length, [.copyRecords "stock_trades" tuples])
    | .error _ =>
      let p := insert_trades_fallback trades execResult
      (p.1, .copyRecords "stock_trades" tuples :: p.2)

/-- Claim C9 (confirmed): the bulk loader returns 0 for an empty batch
without touching the store; when the COPY path fails on a non-empty batch
the same rows are re-submitted through the fallback and, on fallback
success, the returned count equals the input length; when the fallback also
fails its error propagates to the caller. -/
theorem c9_bulk_loader (trades : List TradeData) (c f : Except String Unit)
    (e e2 : String) (hne : trades ≠ []) :
    insert_trades_batch [] c f = (.ok 0, []) ∧
    insert_trades_batch trades (.error e) (.ok ()) =
      (.ok trades.length,
       [.copyRecords "stock_trades" (trades.map TradeData.to_tuple),
        .execMany (trades.map TradeData.to_tuple)]) ∧
    insert_trades_batch trades (.error e) (.error e2) =
      (.error e2,
       [.copyRecords "stock_trades" (trades.map TradeData.to_tuple),
        .execMany (trades.map TradeData.to_tuple)]) := by
  have hne2 : trades.isEmpty = false := by
    cases trades with
    | nil => exact absurd rfl hne
    | cons a l => rfl
  refine ⟨rfl, ?_, ?_⟩ <;>
    simp [insert_trades_batch, insert_trades_fallback, hne2]

/-- Witness for claim C9 at a concrete one-record batch. -/
theorem c9_bulk_loader_witness :
    insert_trades_batch [] (Except.error "copy boom") (Except.ok ()) = (.ok 0, []) ∧
    insert_trades_batch [tradeA] (.error "copy boom") (.ok ()) =
      (.ok [tradeA].length,
       [.copyRecords "stock_trades" ([tradeA].map TradeData.to_tuple),
        .execMany ([tradeA].map TradeData.to_tuple)]) ∧
    insert_trades_batch [tradeA] (.error "copy boom") (.error "row boom") =
      (.error "row boom",
       [.copyRecords "stock_trades" ([tradeA].map TradeData.to_tuple),
        .execMany ([tradeA].map TradeData.to_tuple)]) :=
  c9_bulk_loader [tradeA] (Except.error "copy boom") (Except.ok ())
    "copy boom" "row boom" (by decide)
